import Mathlib

/-
Verification development for the weston-greeter desktop-shell client
(clients/desktop-shell.c).

The C file is a single-threaded, event-driven Wayland client.  We embed the
state it manipulates (the `struct desktop` singleton, its outputs, panels,
backgrounds, the unlock dialog and the password sub-dialog) as plain Lean
structures, and each event handler as a pure function from a state to a new
state together with the list of outbound protocol calls it performs.  The
`Action` type records those outbound calls (plus two bookkeeping events:
`outputInitialized`, marking a call of the C function `output_init`, and
`unlockDialogDestroyCall`, recording the pointer argument passed to
`unlock_dialog_destroy`), so that "at most once" / "exactly once" statements
about protocol traffic can be stated as facts about the emitted list.

Pointers that the C code holds into its own lists (the active panel and the
active background of an output) are modelled by value: `Panel` and
`Background` are plain records, an active surface is an `Option` copy of a
list member, and 0-or-1-instance objects (`desktop->unlock_dialog`) are
`Option` fields.
-/

namespace WestonGreeter

/-- Mirror of `struct panel` (the fields the shell logic reads: the user the
panel was created for, recorded in its switcher, and the `painted` flag). -/
structure Panel where
  username : String
  painted : Bool
  deriving DecidableEq, Repr

/-- Mirror of `struct background` (its `username` and `painted` fields). -/
structure Background where
  username : String
  painted : Bool
  deriving DecidableEq, Repr

/-- Mirror of `struct output`: the server-assigned global id, the active
panel/background pointers and the cached per-user lists `panels` and
`backgrounds`. -/
structure Output where
  server_output_id : Nat
  panel : Option Panel
  panels : List Panel
  background : Option Background
  backgrounds : List Background
  deriving DecidableEq, Repr

/-- Mirror of `struct unlock_dialog` (only the `closing` flag matters to the
shell logic; the user-entry list is rendering data). -/
structure UnlockDialog where
  closing : Bool
  deriving DecidableEq, Repr

/-- Mirror of `struct password_dialog`: the masked text buffer and the cursor
offset `cursor_pos`. -/
structure PasswordDialog where
  text : List Char
  cursor_pos : Nat
  deriving DecidableEq, Repr

/-- Outbound protocol requests issued by the client, plus two bookkeeping
events: `outputInitialized id` marks a call of `output_init` on the output
with that server id, and `unlockDialogDestroyCall dlg` records the argument
passed to `unlock_dialog_destroy` (so that a call on a NULL pointer is
visible). -/
inductive Action where
  | unlock
  | setLockSurface
  | desktopReady
  | switchUser (name : String)
  | destroyPasswordDialog
  | setPanel (outputId : Nat)
  | setBackground (outputId : Nat)
  | outputInitialized (outputId : Nat)
  | destroyPanel (p : Panel)
  | destroyBackground (b : Background)
  | deferUnlockTask
  | unlockDialogDestroyCall (dlg : Option UnlockDialog)
  deriving DecidableEq, Repr

/-- Mirror of `struct desktop`, the process-wide session singleton.  `shell`
models `desktop->shell != NULL`, `listenerRegistered` models that
`desktop_shell_add_listener` has been called, `painted` is the desktop-level
readiness flag. -/
structure Desktop where
  interface_version : Nat
  shell : Bool
  listenerRegistered : Bool
  unlock_dialog : Option UnlockDialog
  outputs : List Output
  locking : Bool
  painted : Bool
  current_user : String
  deriving DecidableEq, Repr

/-- `unlock_dialog_create`: allocates the dialog with `closing = 0` (xzalloc)
and calls `desktop_shell_set_lock_surface` on its window. -/
def unlock_dialog_create : UnlockDialog × List Action :=
  ({ closing := false }, [Action.setLockSurface])

/-- `desktop_shell_prepare_lock_surface`: if locking is disabled, immediately
send `desktop_shell_unlock` and return; otherwise create the unlock dialog
only when none exists. -/
def desktop_shell_prepare_lock_surface (d : Desktop) : Desktop × List Action :=
  if !d.locking then
    (d, [Action.unlock])
  else
    match d.unlock_dialog with
    | some _ => (d, [])
    | none =>
      ({ d with unlock_dialog := some unlock_dialog_create.1 },
       unlock_dialog_create.2)

/-- `unlock_dialog_finish` (the deferred `unlock_task`): sends
`desktop_shell_unlock`, calls `unlock_dialog_destroy` on whatever
`desktop->unlock_dialog` currently holds (possibly NULL), then clears the
reference. -/
def unlock_dialog_finish (d : Desktop) : Desktop × List Action :=
  ({ d with unlock_dialog := none },
   [Action.unlock, Action.unlockDialogDestroyCall d.unlock_dialog])

/-- The `XKB_KEY_Return` / `XKB_KEY_KP_Enter` branch of
`password_dialog_key_handler`: if the owning unlock dialog is not already
`closing`, send `desktop_shell_switch_user` and set `closing = 1`; in every
case call `password_dialog_destroy` on the sub-dialog.  The state threaded
through is the `closing` flag of the unlock dialog (which survives the
destruction of the password sub-dialog). -/
def password_dialog_key_enter (closing : Bool) (name : String) :
    Bool × List Action :=
  if !closing then
    (true, [Action.switchUser name, Action.destroyPasswordDialog])
  else
    (closing, [Action.destroyPasswordDialog])

/-- Delivering `n` consecutive Enter-key submit events to the password
sub-dialog handler, accumulating the emitted actions. -/
def run_submits (closing : Bool) (name : String) : Nat → Bool × List Action
  | 0 => (closing, [])
  | n + 1 =>
    let r := password_dialog_key_enter closing name
    let rr := run_submits r.1 name n
    (rr.1, r.2 ++ rr.2)

/-- `panel_create`: a fresh panel for the current user; `xzalloc` leaves
`painted = 0`, and the switcher records `desktop->current_user`. -/
def panel_create (user : String) : Panel :=
  { username := user, painted := false }

/-- `background_create`: a fresh background; `xzalloc` leaves `painted = 0`
and `background->username = strdup(desktop->current_user)`. -/
def background_create (user : String) : Background :=
  { username := user, painted := false }

/-- `panel_redraw_handler`: paints the panel and sets `panel->painted = 1`
(it then calls `check_desktop_ready`, modelled separately). -/
def panel_redraw_handler (p : Panel) : Panel :=
  { p with painted := true }

/-- `background_draw`: paints the background and sets
`background->painted = 1` (then calls `check_desktop_ready`). -/
def background_draw (b : Background) : Background :=
  { b with painted := true }

/-- `panel_configure`: on a configure event the panel schedules a resize of
its window to `(width, 32)` — the requested height is ignored.  The panel
struct itself is not touched.  The result is the panel together with the
scheduled size. -/
def panel_configure (p : Panel) (width height : Int) : Panel × Int × Int :=
  (p, width, 32)

/-- `background_configure`: schedules a resize of the background widget to
exactly the requested `(width, height)`.  The background struct is not
touched. -/
def background_configure (b : Background) (width height : Int) :
    Background × Int × Int :=
  (b, width, height)

/-- `is_desktop_painted`: false iff some output has an active panel or an
active background whose `painted` flag is unset. -/
def is_desktop_painted (outputs : List Output) : Bool :=
  outputs.all fun o =>
    (Option.all (fun p => p.painted) o.panel) &&
    (Option.all (fun b => b.painted) o.background)

/-- `check_desktop_ready`: if the desktop-level `painted` flag is unset and
every active surface has painted, set the flag; send
`desktop_shell_desktop_ready` only when the negotiated interface version is
at least 2. -/
def check_desktop_ready (d : Desktop) : Desktop × List Action :=
  if !d.painted && is_desktop_painted d.outputs then
    ({ d with painted := true },
     if 2 ≤ d.interface_version then [Action.desktopReady] else [])
  else
    (d, [])

/-- A sequence of paint-completion events: before each call of
`check_desktop_ready` the outputs (their surfaces and painted flags) may have
been changed arbitrarily by paints and resizes; each list entry is the
outputs snapshot seen by that call. -/
def run_ready_checks (d : Desktop) : List (List Output) → Desktop × List Action
  | [] => (d, [])
  | outs :: rest =>
    let r := check_desktop_ready { d with outputs := outs }
    let rr := run_ready_checks r.1 rest
    (rr.1, r.2 ++ rr.2)

/-- The per-output scan loops of `desktop_shell_user_switched`, generic over
panels and backgrounds.  Mirrors `wl_list_for_each` over the cached list:
each entry whose username matches makes the *exists* flag true, becomes the
active surface, and triggers one `set_panel` / `set_background` request
(`act`).  The accumulator is (exists flag, active surface, actions so far). -/
def user_switch_scan (getName : α → String) (username : String) (act : Action) :
    List α → Bool × Option α × List Action → Bool × Option α × List Action
  | [], st => st
  | x :: rest, st =>
    if getName x = username then
      user_switch_scan getName username act rest (true, some x, st.2.2 ++ [act])
    else
      user_switch_scan getName username act rest st

/-- The panels block of the outputs loop of `desktop_shell_user_switched`:
scan the cached panels for the new user (see `user_switch_scan`); if none
matched (`panel_exists == 0`), create a fresh panel, insert it at the head of
the cache (`wl_list_insert` after the list head), make it active and announce
it with `set_panel`. -/
def user_switched_panel_part (username : String) (o : Output) :
    Output × List Action :=
  let pp := user_switch_scan Panel.username username
              (Action.setPanel o.server_output_id) o.panels (false, o.panel, [])
  if pp.1 then
    ({ o with panel := pp.2.1 }, pp.2.2)
  else
    let newp := panel_create username
    ({ o with panel := some newp, panels := newp :: o.panels },
     pp.2.2 ++ [Action.setPanel o.server_output_id])

/-- The backgrounds block of the outputs loop of
`desktop_shell_user_switched`, exactly parallel to the panels block. -/
def user_switched_background_part (username : String) (o : Output) :
    Output × List Action :=
  let bp := user_switch_scan Background.username username
              (Action.setBackground o.server_output_id) o.backgrounds
              (false, o.background, [])
  if bp.1 then
    ({ o with background := bp.2.1 }, bp.2.2)
  else
    let newb := background_create username
    ({ o with background := some newb, backgrounds := newb :: o.backgrounds },
     bp.2.2 ++ [Action.setBackground o.server_output_id])

/-- The body of the outputs loop of `desktop_shell_user_switched` for one
output: the panels block followed by the backgrounds block. -/
def user_switched_output (username : String) (o : Output) :
    Output × List Action :=
  let r1 := user_switched_panel_part username o
  let r2 := user_switched_background_part username r1.1
  (r2.1, r1.2 ++ r2.2)

/-- `desktop_shell_user_switched`: update `current_user`, rebind (reuse or
create) the panel and background of every output for the new user, then
queue the deferred unlock task with `display_defer` — unconditionally, and
without running `unlock_dialog_finish` synchronously. -/
def desktop_shell_user_switched (d : Desktop) (username : String) :
    Desktop × List Action :=
  let outs := d.outputs.map (user_switched_output username)
  ({ d with current_user := username, outputs := outs.map Prod.fst },
   (outs.map Prod.snd).flatten ++ [Action.deferUnlockTask])

/-- `output_init`: create the panel and the background for the current user,
insert them into the (fresh) per-output caches, make them active and
announce them with `set_panel` / `set_background`.  The
`outputInitialized` action marks the call itself. -/
def output_init (user : String) (o : Output) : Output × List Action :=
  let p := panel_create user
  let b := background_create user
  ({ o with panel := some p, panels := [p],
            background := some b, backgrounds := [b] },
   [Action.outputInitialized o.server_output_id,
    Action.setPanel o.server_output_id,
    Action.setBackground o.server_output_id])

/-- `create_output`: allocate the output record, remember the server global
id, insert it into `desktop->outputs`; the panel and background are created
right away only if the shell global has already been bound. -/
def create_output (d : Desktop) (id : Nat) : Desktop × List Action :=
  let o : Output :=
    { server_output_id := id, panel := none, panels := [],
      background := none, backgrounds := [] }
  if d.shell then
    let r := output_init d.current_user o
    ({ d with outputs := r.1 :: d.outputs }, r.2)
  else
    ({ d with outputs := o :: d.outputs }, [])

/-- Registry global-add events seen during startup. -/
inductive GlobalEvent where
  | shellAdded (version : Nat)
  | outputAdded (id : Nat)
  deriving DecidableEq, Repr

/-- `global_handler`: on the `desktop_shell` interface, record the negotiated
version `(version < 2) ? version : 2`, bind the shell and register the
protocol listener; on `wl_output`, delegate to `create_output`. -/
def global_handler (d : Desktop) : GlobalEvent → Desktop × List Action
  | GlobalEvent.shellAdded v =>
    ({ d with interface_version := min v 2, shell := true,
              listenerRegistered := true }, [])
  | GlobalEvent.outputAdded id => create_output d id

/-- Process a list of global-add events in order. -/
def run_globals (d : Desktop) : List GlobalEvent → Desktop × List Action
  | [] => (d, [])
  | e :: rest =>
    let r := global_handler d e
    let rr := run_globals r.1 rest
    (rr.1, r.2 ++ rr.2)

/-- The retroactive loop in `main`: after the initial roundtrip, initialize
every output that was processed before the shell global (`if (!output->panel)
output_init(...)`). -/
def main_retroactive (user : String) :
    List Output → List Output × List Action
  | [] => ([], [])
  | o :: rest =>
    let r := if o.panel = none then output_init user o else (o, [])
    let rr := main_retroactive user rest
    (r.1 :: rr.1, r.2 ++ rr.2)

/-- The startup sequence: `display_create` delivers the initial globals to
`global_handler`, then `main` runs the retroactive initialization pass over
`desktop->outputs`. -/
def startup (d : Desktop) (evs : List GlobalEvent) : Desktop × List Action :=
  let r := run_globals d evs
  let m := main_retroactive r.1.current_user r.1.outputs
  ({ r.1 with outputs := m.1 }, r.2 ++ m.2)

/-- `output_destroy`: destroy every cached background, then every cached
panel of the output (`wl_list_for_each_safe` over both lists); the output
itself is unlinked and freed by the caller side of the model. -/
def output_destroy (o : Output) : List Action :=
  o.backgrounds.map Action.destroyBackground ++ o.panels.map Action.destroyPanel

/-- `global_handler_remove` for a `wl_output` global: walk the registry, and
on the first output whose `server_output_id` matches, run `output_destroy`
(which also removes it from the list) and break. -/
def global_handler_remove (outs : List Output) (id : Nat) :
    List Output × List Action :=
  match outs with
  | [] => ([], [])
  | o :: rest =>
    if o.server_output_id = id then
      (rest, output_destroy o)
    else
      let r := global_handler_remove rest id
      (o :: r.1, r.2)

/-- Key events the editing `switch` of `password_dialog_key_handler`
distinguishes (Escape and Enter are handled before the switch).  A printable
key carries the UTF-8 units produced by `xkb_keysym_to_utf8`; an empty list
models a failed conversion (return value `<= 0`). -/
inductive Key where
  | backspace
  | delete
  | left
  | right
  | tab
  | char (enc : List Char)
  deriving DecidableEq, Repr

/-- The editing `switch` of `password_dialog_key_handler`: backspace removes
the character before the cursor unless `cursor_pos == 0`; Delete, Left,
Right and Tab are no-ops; any other key inserts its single UTF-8 unit at the
cursor, rejected when the text already holds 30 characters, when the
conversion failed, or when the encoding is longer than one unit. -/
def password_dialog_edit (d : PasswordDialog) (k : Key) : PasswordDialog :=
  match k with
  | Key.backspace =>
    if d.cursor_pos = 0 then d
    else
      { text := d.text.take (d.cursor_pos - 1) ++ d.text.drop d.cursor_pos,
        cursor_pos := d.cursor_pos - 1 }
  | Key.delete => d
  | Key.left => d
  | Key.right => d
  | Key.tab => d
  | Key.char enc =>
    if 30 ≤ d.text.length then d
    else if enc.length = 0 then d
    else if 1 < enc.length then d
    else
      { text := d.text.take d.cursor_pos ++ enc ++ d.text.drop d.cursor_pos,
        cursor_pos := d.cursor_pos + 1 }

/-- A concrete desktop with locking disabled, for instantiating theorems. -/
def desktopNoLock : Desktop :=
  { interface_version := 2, shell := true, listenerRegistered := true,
    unlock_dialog := none, outputs := [], locking := false,
    painted := false, current_user := "Guest" }

/-- A concrete desktop with locking enabled and no dialog open. -/
def desktopLock : Desktop :=
  { interface_version := 2, shell := true, listenerRegistered := true,
    unlock_dialog := none, outputs := [], locking := true,
    painted := false, current_user := "Guest" }

/-- C1: handling prepare-lock with locking disabled sends `unlock` at once and
creates no dialog; with locking enabled a dialog is created exactly when none
exists, and a second prepare-lock without an intervening unlock changes
nothing, leaving exactly one dialog in existence. -/
theorem claim_C1 (d : Desktop) :
    (d.locking = false →
      desktop_shell_prepare_lock_surface d = (d, [Action.unlock])) ∧
    (d.locking = true → d.unlock_dialog = none →
      (desktop_shell_prepare_lock_surface d).1.unlock_dialog
          = some { closing := false } ∧
      (desktop_shell_prepare_lock_surface d).2 = [Action.setLockSurface]) ∧
    (d.locking = true → d.unlock_dialog.isSome = true →
      desktop_shell_prepare_lock_surface d = (d, [])) ∧
    (d.locking = true →
      desktop_shell_prepare_lock_surface
          (desktop_shell_prepare_lock_surface d).1
        = ((desktop_shell_prepare_lock_surface d).1, []) ∧
      ((desktop_shell_prepare_lock_surface d).1.unlock_dialog).isSome
        = true) := by
  refine ⟨fun h => ?_, fun h h2 => ?_, fun h h2 => ?_, fun h => ?_⟩
  · simp [desktop_shell_prepare_lock_surface, h]
  · simp [desktop_shell_prepare_lock_surface, h, h2, unlock_dialog_create]
  · obtain ⟨dlg, hdlg⟩ := Option.isSome_iff_exists.mp h2
    simp [desktop_shell_prepare_lock_surface, h, hdlg]
  · cases h2 : d.unlock_dialog with
    | none =>
      simp [desktop_shell_prepare_lock_surface, h, h2, unlock_dialog_create]
    | some dlg =>
      simp [desktop_shell_prepare_lock_surface, h, h2]

/-- Witness for C1 at concrete desktops. -/
theorem claim_C1_witness :
    desktop_shell_prepare_lock_surface desktopNoLock
        = (desktopNoLock, [Action.unlock]) ∧
    (desktop_shell_prepare_lock_surface desktopLock).1.unlock_dialog
        = some { closing := false } :=
  ⟨(claim_C1 desktopNoLock).1 rfl,
   ((claim_C1 desktopLock).2.1 rfl rfl).1⟩

/-- C2 counterexample: two Enter submits delivered to the password sub-dialog
handler perform two `password_dialog_destroy` calls, not exactly one — the
`closing` flag guards only the `switch_user` request, while the handler calls
`password_dialog_destroy` unconditionally on every submit. -/
theorem claim_C2_counterexample :
    ¬ ((run_submits false "alice" 2).2.count Action.destroyPasswordDialog
          = 1) := by
  decide

/-- Once the unlock dialog is `closing`, each further submit emits exactly one
destroy call and nothing else. -/
theorem run_submits_closing (name : String) (m : Nat) :
    run_submits true name m
      = (true, List.replicate m Action.destroyPasswordDialog) := by
  induction m with
  | zero => rfl
  | succ k ih =>
    simp [run_submits, password_dialog_key_enter, ih, List.replicate_succ]

/-- C2 amended: over any nonempty sequence of Enter submits, the first submit
sends the single `switch_user` request and sets `closing`; every later submit
sends nothing — but each of the `n` submits performs one
`password_dialog_destroy`, so `n` destroy calls are performed, not one. -/
theorem claim_C2_amended (name : String) (n : Nat) (h : 1 ≤ n) :
    (run_submits false name n).2
        = Action.switchUser name :: Action.destroyPasswordDialog ::
            List.replicate (n - 1) Action.destroyPasswordDialog ∧
    (run_submits false name n).2.count (Action.switchUser name) = 1 ∧
    (run_submits false name n).2.count Action.destroyPasswordDialog = n := by
  obtain ⟨m, rfl⟩ : ∃ m, n = m + 1 :=
    ⟨n - 1, (Nat.succ_pred_eq_of_pos h).symm⟩
  have hrun : (run_submits false name (m + 1)).2
      = Action.switchUser name :: Action.destroyPasswordDialog ::
          List.replicate m Action.destroyPasswordDialog := by
    simp [run_submits, password_dialog_key_enter, run_submits_closing]
  refine ⟨by simpa using hrun, ?_, ?_⟩
  · rw [hrun]
    simp [List.count_cons, List.count_replicate]
  · rw [hrun]
    simp [List.count_cons, List.count_replicate]

/-- Witness for C2 amended at two submits. -/
theorem claim_C2_amended_witness :
    (run_submits false "bob" 2).2.count Action.destroyPasswordDialog = 2 :=
  (claim_C2_amended "bob" 2 (by decide)).2.2

/-- C7 counterexample: a configure (resize) event on an already painted panel
does not clear its `painted` flag — `panel_configure` only schedules the
resize and leaves the panel untouched; nothing in the client ever resets a
surface's `painted` flag to false. -/
theorem claim_C7_counterexample :
    ¬ ((panel_configure { username := "Guest", painted := true } 640
          480).1.painted = false) := by
  decide

/-- C7 amended: the painted flag becomes true when the surface completes a
paint, and the configure (resize) handlers leave the panel and the background
unchanged — the flag is never cleared, so a previously painted surface still
counts as painted after a resize. -/
theorem claim_C7_amended (p : Panel) (b : Background) (w h : Int) :
    (panel_redraw_handler p).painted = true ∧
    (background_draw b).painted = true ∧
    (panel_configure p w h).1 = p ∧
    (background_configure b w h).1 = b :=
  ⟨rfl, rfl, rfl, rfl⟩

/-- C8: a configure event for a panel schedules size `(width, 32)` whatever
height was requested, and a configure event for a background schedules
exactly the requested `(width, height)`. -/
theorem claim_C8 (p : Panel) (b : Background) (w h : Int) :
    (panel_configure p w h).2 = (w, 32) ∧
    (background_configure b w h).2 = (w, h) :=
  ⟨rfl, rfl⟩

/-- C9: every edit of the password sub-dialog keeps `cursor_pos ≤ length`;
backspace at offset 0 is a no-op; insertion is rejected at the maximum
length; multi-unit encodings are rejected, so only single-unit characters are
ever inserted. -/
theorem claim_C9 (d : PasswordDialog) (k : Key)
    (h : d.cursor_pos ≤ d.text.length) :
    (password_dialog_edit d k).cursor_pos
        ≤ (password_dialog_edit d k).text.length ∧
    (d.cursor_pos = 0 → password_dialog_edit d Key.backspace = d) ∧
    (∀ enc, 30 ≤ d.text.length → password_dialog_edit d (Key.char enc) = d) ∧
    (∀ enc, 1 < enc.length → password_dialog_edit d (Key.char enc) = d) ∧
    (∀ enc, (password_dialog_edit d (Key.char enc)).text ≠ d.text →
        enc.length = 1) := by
  refine ⟨?_, fun h0 => ?_, fun enc hfull => ?_, fun enc hlong => ?_,
          fun enc hne => ?_⟩
  · cases k with
    | backspace =>
      by_cases h0 : d.cursor_pos = 0
      · simp [password_dialog_edit, h0, h]
      · simp only [password_dialog_edit, if_neg h0]
        simp [List.length_take, List.length_drop]
        omega
    | delete => simpa [password_dialog_edit] using h
    | left => simpa [password_dialog_edit] using h
    | right => simpa [password_dialog_edit] using h
    | tab => simpa [password_dialog_edit] using h
    | char enc =>
      by_cases hfull : 30 ≤ d.text.length
      · simpa [password_dialog_edit, hfull] using h
      · by_cases hz : enc.length = 0
        · simpa [password_dialog_edit, hfull, hz] using h
        · by_cases hlong : 1 < enc.length
          · simpa [password_dialog_edit, hfull, hz, hlong] using h
          · simp only [password_dialog_edit, if_neg hfull, if_neg hz,
                       if_neg hlong]
            simp [List.length_take, List.length_drop]
            omega
  · simp [password_dialog_edit, h0]
  · simp [password_dialog_edit, hfull]
  · have hz : ¬ enc.length = 0 := by omega
    by_cases hfull : 30 ≤ d.text.length
    · simp [password_dialog_edit, hfull]
    · simp [password_dialog_edit, hfull, hz, hlong]
  · by_cases hfull : 30 ≤ d.text.length
    · simp [password_dialog_edit, hfull] at hne
    · by_cases hz : enc.length = 0
      · simp [password_dialog_edit, hfull, hz] at hne
      · by_cases hlong : 1 < enc.length
        · simp [password_dialog_edit, hfull, hz, hlong] at hne
        · omega

/-- Witness for C9: backspace at offset 1 of a two-character text preserves
the cursor invariant. -/
theorem claim_C9_witness :
    (password_dialog_edit { text := ['a', 'b'], cursor_pos := 1 }
        Key.backspace).cursor_pos
      ≤ (password_dialog_edit { text := ['a', 'b'], cursor_pos := 1 }
          Key.backspace).text.length :=
  (claim_C9 { text := ['a', 'b'], cursor_pos := 1 } Key.backspace
    (by decide)).1

/-- C10: `desktop_shell_user_switched` queues the deferred unlock task
unconditionally — also when no unlock dialog exists — and the queued
`unlock_dialog_finish` then sends `unlock` and invokes
`unlock_dialog_destroy` on the NULL dialog reference. -/
theorem claim_C10 (d : Desktop) (username : String)
    (h : d.unlock_dialog = none) :
    Action.deferUnlockTask ∈ (desktop_shell_user_switched d username).2 ∧
    (unlock_dialog_finish d).2
        = [Action.unlock, Action.unlockDialogDestroyCall none] ∧
    (unlock_dialog_finish d).1.unlock_dialog = none := by
  refine ⟨?_, ?_, rfl⟩
  · simp [desktop_shell_user_switched]
  · simp [unlock_dialog_finish, h]

/-- Witness for C10 at a concrete desktop with no dialog open. -/
theorem claim_C10_witness :
    Action.deferUnlockTask
      ∈ (desktop_shell_user_switched desktopLock "alice").2 :=
  (claim_C10 desktopLock "alice" rfl).1

/-- `global_handler_remove` leaves the registry untouched when no output has
the removed id. -/
theorem global_handler_remove_not_found (outs : List Output) (id : Nat)
    (h : ∀ o ∈ outs, o.server_output_id ≠ id) :
    global_handler_remove outs id = (outs, []) := by
  induction outs with
  | nil => rfl
  | cons o rest ih =>
    have h1 : o.server_output_id ≠ id := h o (by simp)
    simp [global_handler_remove, h1,
          ih fun q hq => h q (by simp [hq])]

/-- `global_handler_remove` removes the first matching output and destroys
all its surface pairs. -/
theorem global_handler_remove_found (pre : List Output) (o : Output)
    (post : List Output) (id : Nat) (ho : o.server_output_id = id)
    (hpre : ∀ q ∈ pre, q.server_output_id ≠ id) :
    global_handler_remove (pre ++ o :: post) id
      = (pre ++ post, output_destroy o) := by
  induction pre with
  | nil => simp [global_handler_remove, ho]
  | cons q rest ih =>
    have h1 : q.server_output_id ≠ id := hpre q (by simp)
    simp [global_handler_remove, h1,
          ih fun r hr => hpre r (by simp [hr])]

/-- C6: removing an output global destroys the first registered output with
that server id together with every panel and background ever cached for it,
and removes it from the registry; when no registered output carries the id
the event changes nothing. -/
theorem claim_C6 (outs : List Output) (id : Nat) :
    ((∀ o ∈ outs, o.server_output_id ≠ id) →
        global_handler_remove outs id = (outs, [])) ∧
    (∀ pre o post, outs = pre ++ o :: post → o.server_output_id = id →
        (∀ q ∈ pre, q.server_output_id ≠ id) →
        (global_handler_remove outs id).1 = pre ++ post ∧
        (global_handler_remove outs id).2 = output_destroy o ∧
        (∀ p ∈ o.panels,
            Action.destroyPanel p ∈ (global_handler_remove outs id).2) ∧
        (∀ b ∈ o.backgrounds,
            Action.destroyBackground b ∈ (global_handler_remove outs id).2)) := by
  refine ⟨fun h => global_handler_remove_not_found outs id h,
          fun pre o post heq ho hpre => ?_⟩
  subst heq
  have hfound := global_handler_remove_found pre o post id ho hpre
  rw [hfound]
  refine ⟨rfl, rfl, fun p hp => ?_, fun b hb => ?_⟩
  · simp only [output_destroy, List.mem_append, List.mem_map]
    exact Or.inr ⟨p, hp, rfl⟩
  · simp only [output_destroy, List.mem_append, List.mem_map]
    exact Or.inl ⟨b, hb, rfl⟩

/-- Witness for C6 at a concrete single-output registry. -/
theorem claim_C6_witness :
    (global_handler_remove
        [{ server_output_id := 7,
           panel := some { username := "Guest", painted := true },
           panels := [{ username := "Guest", painted := true }],
           background := some { username := "Guest", painted := false },
           backgrounds := [{ username := "Guest", painted := false }] }] 7).1
      = [] :=
  (((claim_C6
      [{ server_output_id := 7,
         panel := some { username := "Guest", painted := true },
         panels := [{ username := "Guest", painted := true }],
         background := some { username := "Guest", painted := false },
         backgrounds := [{ username := "Guest", painted := false }] }] 7).2
    [] { server_output_id := 7,
         panel := some { username := "Guest", painted := true },
         panels := [{ username := "Guest", painted := true }],
         background := some { username := "Guest", painted := false },
         backgrounds := [{ username := "Guest", painted := false }] }
    [] rfl rfl (by simp)).1)

/-- After the readiness flag is set, `check_desktop_ready` is a no-op. -/
theorem check_desktop_ready_painted (d : Desktop) (h : d.painted = true) :
    check_desktop_ready d = (d, []) := by
  simp [check_desktop_ready, h]

/-- After the readiness flag is set, a whole sequence of readiness checks
emits nothing and the flag stays set. -/
theorem run_ready_checks_painted (us : List (List Output)) (d : Desktop)
    (h : d.painted = true) :
    (run_ready_checks d us).2 = [] ∧
    (run_ready_checks d us).1.painted = true := by
  induction us generalizing d with
  | nil => exact ⟨rfl, h⟩
  | cons outs rest ih =>
    have hstep : check_desktop_ready { d with outputs := outs }
        = ({ d with outputs := outs }, []) :=
      check_desktop_ready_painted { d with outputs := outs } h
    have hrest := ih { d with outputs := outs } h
    simp [run_ready_checks, hstep, hrest.1, hrest.2]

/-- `check_desktop_ready` emits the desktop-ready signal only when the flag
is still unset, every active surface has painted, and the negotiated version
is at least 2. -/
theorem check_desktop_ready_emits (d : Desktop)
    (h : Action.desktopReady ∈ (check_desktop_ready d).2) :
    d.painted = false ∧ is_desktop_painted d.outputs = true ∧
    2 ≤ d.interface_version := by
  by_cases hp : d.painted = true
  · rw [check_desktop_ready_painted d hp] at h
    simp at h
  · by_cases hip : is_desktop_painted d.outputs = true
    · by_cases hv : 2 ≤ d.interface_version
      · exact ⟨by simpa using hp, hip, hv⟩
      · simp [check_desktop_ready, hp, hip, hv] at h
    · simp [check_desktop_ready, hp, hip] at h

/-- Over any sequence of readiness checks the desktop-ready signal is emitted
at most once. -/
theorem run_ready_checks_count (us : List (List Output)) (d : Desktop) :
    (run_ready_checks d us).2.count Action.desktopReady ≤ 1 := by
  induction us generalizing d with
  | nil => simp [run_ready_checks]
  | cons outs rest ih =>
    by_cases hp : d.painted = true
    · have hstep : check_desktop_ready { d with outputs := outs }
          = ({ d with outputs := outs }, []) :=
        check_desktop_ready_painted { d with outputs := outs } hp
      have hrest := (run_ready_checks_painted rest { d with outputs := outs }
        hp).1
      simp [run_ready_checks, hstep, hrest]
    · by_cases hip : is_desktop_painted outs = true
      · have hstep : check_desktop_ready { d with outputs := outs }
            = ({ d with outputs := outs, painted := true },
               if 2 ≤ d.interface_version then [Action.desktopReady]
               else []) := by
          simp [check_desktop_ready, hp, hip]
        have hrest := (run_ready_checks_painted rest
          { d with outputs := outs, painted := true } rfl).1
        by_cases hv : 2 ≤ d.interface_version <;>
          simp [run_ready_checks, hstep, hrest, hv, List.count_cons]
      · have hstep : check_desktop_ready { d with outputs := outs }
            = ({ d with outputs := outs }, []) := by
          simp [check_desktop_ready, hp, hip]
        have hrest := ih { d with outputs := outs }
        simpa [run_ready_checks, hstep] using hrest

/-- C3: across any sequence of paint-completion checks, the desktop-ready
signal is sent at most once; a single check sends it only when the readiness
flag is still false, all active surfaces have painted, and the negotiated
version is at least 2; once the flag is set, every later check is a no-op on
the protocol. -/
theorem claim_C3 (d : Desktop) (updates : List (List Output)) :
    (run_ready_checks d updates).2.count Action.desktopReady ≤ 1 ∧
    (Action.desktopReady ∈ (check_desktop_ready d).2 →
        d.painted = false ∧ is_desktop_painted d.outputs = true ∧
        2 ≤ d.interface_version) ∧
    (d.painted = true →
        (run_ready_checks d updates).2 = [] ∧
        (run_ready_checks d updates).1.painted = true) :=
  ⟨run_ready_checks_count updates d,
   check_desktop_ready_emits d,
   fun h => run_ready_checks_painted updates d h⟩

/-- Witness for C3 at a concrete desktop whose readiness check fires. -/
theorem claim_C3_witness :
    desktopLock.painted = false ∧
    is_desktop_painted desktopLock.outputs = true ∧
    2 ≤ desktopLock.interface_version :=
  (claim_C3 desktopLock []).2.1 (by decide)

/-- Number of registered outputs with the given server id that still await
their panel and background (outputs processed before the shell global). -/
def pendingCount (outs : List Output) (i : Nat) : Nat :=
  outs.countP fun o => decide (o.server_output_id = i ∧ o.panel = none)

/-- Unfolding `pendingCount` over a cons cell. -/
theorem pendingCount_cons (o : Output) (outs : List Output) (i : Nat) :
    pendingCount (o :: outs) i
      = pendingCount outs i
        + (if o.server_output_id = i ∧ o.panel = none then 1 else 0) := by
  simp [pendingCount, List.countP_cons]

/-- `output_init` announces exactly one initialization of its output. -/
theorem output_init_count (u : String) (o : Output) (i : Nat) :
    (output_init u o).2.count (Action.outputInitialized i)
      = if o.server_output_id = i then 1 else 0 := by
  by_cases hj : o.server_output_id = i <;>
    simp [output_init, hj, List.count_cons]

/-- Invariant of the global-add loop: initializations already performed plus
outputs still awaiting initialization equals the number of output-add events
seen. -/
theorem run_globals_init_count (evs : List GlobalEvent) (d : Desktop)
    (i : Nat) :
    (run_globals d evs).2.count (Action.outputInitialized i)
        + pendingCount (run_globals d evs).1.outputs i
      = evs.count (GlobalEvent.outputAdded i) + pendingCount d.outputs i := by
  induction evs generalizing d with
  | nil => simp [run_globals]
  | cons e rest ih =>
    cases e with
    | shellAdded v =>
      have hstep := ih { d with interface_version := min v 2, shell := true,
                                listenerRegistered := true }
      simp only [run_globals, global_handler]
      simpa [List.count_cons] using hstep
    | outputAdded j =>
      by_cases hs : d.shell = true
      · simp only [run_globals, global_handler, create_output, hs, if_true]
        have hstep := ih { d with outputs :=
            (output_init d.current_user
              { server_output_id := j, panel := none, panels := [],
                background := none, backgrounds := [] }).1 :: d.outputs }
        simp only [hs] at hstep
        rw [pendingCount_cons] at hstep
        rw [if_neg (by simp [output_init])] at hstep
        rw [Nat.add_zero] at hstep
        rw [List.count_append, output_init_count, List.count_cons]
        by_cases hj : j = i <;> simp [hj] at hstep ⊢ <;> omega
      · have hsF : d.shell = false := by simpa using hs
        simp only [run_globals, global_handler, create_output, hsF,
                   Bool.false_eq_true, if_false]
        have hstep := ih { d with outputs :=
            { server_output_id := j, panel := none, panels := [],
              background := none, backgrounds := [] } :: d.outputs }
        simp only [hsF] at hstep
        rw [pendingCount_cons] at hstep
        rw [List.count_cons]
        by_cases hj : j = i <;> simp [hj] at hstep ⊢ <;> omega

/-- The retroactive pass in `main` performs exactly one initialization per
output that was still awaiting one. -/
theorem main_retroactive_init_count (u : String) (outs : List Output)
    (i : Nat) :
    (main_retroactive u outs).2.count (Action.outputInitialized i)
      = pendingCount outs i := by
  induction outs with
  | nil => simp [main_retroactive, pendingCount]
  | cons o rest ih =>
    by_cases hp : o.panel = none
    · simp only [main_retroactive, hp, if_true]
      rw [List.count_append, output_init_count, pendingCount_cons, ih]
      by_cases hj : o.server_output_id = i <;> simp [hj, hp] <;> omega
    · simp only [main_retroactive, hp, if_false]
      rw [List.count_append, pendingCount_cons, ih]
      simp [hp]

/-- Every output coming out of the retroactive pass carries a panel. -/
theorem main_retroactive_all_some (u : String) (outs : List Output) :
    ∀ o ∈ (main_retroactive u outs).1, o.panel.isSome = true := by
  induction outs with
  | nil => simp [main_retroactive]
  | cons o rest ih =>
    intro q hq
    by_cases hp : o.panel = none
    · simp only [main_retroactive, hp, if_true] at hq
      rcases List.mem_cons.mp hq with h | h
      · subst h; rfl
      · exact ih q h
    · simp only [main_retroactive, hp, if_false] at hq
      rcases List.mem_cons.mp hq with h | h
      · subst h; simpa [Option.isSome_iff_ne_none] using hp
      · exact ih q h

/-- `run_globals` distributes over list append. -/
theorem run_globals_append (evs1 evs2 : List GlobalEvent) (d : Desktop) :
    run_globals d (evs1 ++ evs2)
      = ((run_globals (run_globals d evs1).1 evs2).1,
         (run_globals d evs1).2
           ++ (run_globals (run_globals d evs1).1 evs2).2) := by
  induction evs1 generalizing d with
  | nil => simp [run_globals]
  | cons e rest ih => simp [run_globals, ih]

/-- Output-add events leave the shell binding, the negotiated version, the
listener flag and the current user unchanged. -/
theorem run_globals_outputs_only (evs : List GlobalEvent) (d : Desktop)
    (h : ∀ e ∈ evs, ∃ i, e = GlobalEvent.outputAdded i) :
    (run_globals d evs).1.interface_version = d.interface_version ∧
    (run_globals d evs).1.listenerRegistered = d.listenerRegistered ∧
    (run_globals d evs).1.shell = d.shell ∧
    (run_globals d evs).1.current_user = d.current_user := by
  induction evs generalizing d with
  | nil => exact ⟨rfl, rfl, rfl, rfl⟩
  | cons e rest ih =>
    obtain ⟨i, rfl⟩ := h e (by simp)
    have hrest := fun d => ih d fun q hq => h q (by simp [hq])
    by_cases hs : d.shell = true <;>
      simpa [run_globals, global_handler, create_output, hs] using hrest _

/-- C5: during startup, when the shell global arrives somewhere among the
output globals, the negotiated version is clamped to `min version 2`, the
protocol listener is registered, and — counting `output_init` calls — every
registered output is initialized exactly once, whether it was registered
before or after the shell global; afterwards every registered output carries
a panel. -/
theorem claim_C5 (evs1 evs2 : List GlobalEvent) (v : Nat) (d0 : Desktop)
    (hshell : d0.shell = false) (houts : d0.outputs = [])
    (h1 : ∀ e ∈ evs1, ∃ i, e = GlobalEvent.outputAdded i)
    (h2 : ∀ e ∈ evs2, ∃ i, e = GlobalEvent.outputAdded i) :
    (startup d0 (evs1 ++ GlobalEvent.shellAdded v :: evs2)).1.interface_version
        = min v 2 ∧
    (startup d0
        (evs1 ++ GlobalEvent.shellAdded v :: evs2)).1.listenerRegistered
        = true ∧
    (∀ i, (startup d0 (evs1 ++ GlobalEvent.shellAdded v :: evs2)).2.count
            (Action.outputInitialized i)
        = (evs1 ++ GlobalEvent.shellAdded v :: evs2).count
            (GlobalEvent.outputAdded i)) ∧
    (∀ o ∈ (startup d0 (evs1 ++ GlobalEvent.shellAdded v :: evs2)).1.outputs,
        o.panel.isSome = true) := by
  set evs := evs1 ++ GlobalEvent.shellAdded v :: evs2 with hevs
  have hr := run_globals_append evs1 (GlobalEvent.shellAdded v :: evs2) d0
  refine ⟨?_, ?_, ?_, ?_⟩
  · show (run_globals d0 evs).1.interface_version = min v 2
    rw [hevs, hr]
    have hmid : (run_globals (run_globals d0 evs1).1
        (GlobalEvent.shellAdded v :: evs2)).1
        = (run_globals { (run_globals d0 evs1).1 with
            interface_version := min v 2, shell := true,
            listenerRegistered := true } evs2).1 := by
      simp [run_globals, global_handler]
    rw [hmid]
    exact (run_globals_outputs_only evs2 _ h2).1
  · show (run_globals d0 evs).1.listenerRegistered = true
    rw [hevs, hr]
    have hmid : (run_globals (run_globals d0 evs1).1
        (GlobalEvent.shellAdded v :: evs2)).1
        = (run_globals { (run_globals d0 evs1).1 with
            interface_version := min v 2, shell := true,
            listenerRegistered := true } evs2).1 := by
      simp [run_globals, global_handler]
    rw [hmid]
    exact (run_globals_outputs_only evs2 _ h2).2.1
  · intro i
    show ((run_globals d0 evs).2
        ++ (main_retroactive (run_globals d0 evs).1.current_user
              (run_globals d0 evs).1.outputs).2).count
          (Action.outputInitialized i)
      = evs.count (GlobalEvent.outputAdded i)
    rw [List.count_append, main_retroactive_init_count]
    have hinv := run_globals_init_count evs d0 i
    rw [houts] at hinv
    simpa [pendingCount] using hinv
  · intro o ho
    exact main_retroactive_all_some _ _ o ho

/-- Witness for C5: an output global arriving before the shell global, and a
second one after it, are each initialized exactly once. -/
theorem claim_C5_witness :
    (startup
        { interface_version := 0, shell := false, listenerRegistered := false,
          unlock_dialog := none, outputs := [], locking := true,
          painted := false, current_user := "Guest" }
        ([GlobalEvent.outputAdded 7]
          ++ GlobalEvent.shellAdded 3 :: [GlobalEvent.outputAdded 8])).2.count
        (Action.outputInitialized 7)
      = ([GlobalEvent.outputAdded 7]
          ++ GlobalEvent.shellAdded 3 :: [GlobalEvent.outputAdded 8]).count
          (GlobalEvent.outputAdded 7) :=
  (claim_C5 [GlobalEvent.outputAdded 7] [GlobalEvent.outputAdded 8] 3
    { interface_version := 0, shell := false, listenerRegistered := false,
      unlock_dialog := none, outputs := [], locking := true,
      painted := false, current_user := "Guest" }
    rfl rfl (by simp) (by simp)).2.2.1 7

/-- The scan loop is the identity when no cached entry matches the user. -/
theorem user_switch_scan_no_match (getName : α → String) (username : String)
    (act : Action) (xs : List α) (st : Bool × Option α × List Action)
    (h : ∀ x ∈ xs, getName x ≠ username) :
    user_switch_scan getName username act xs st = st := by
  induction xs generalizing st with
  | nil => rfl
  | cons x rest ih =>
    have h1 : getName x ≠ username := h x (by simp)
    simp only [user_switch_scan, if_neg h1]
    exact ih st fun q hq => h q (by simp [hq])

/-- When some cached entry matches, the scan loop reports it: the exists flag
is set, the active surface is a matching cached entry, and the announce
action was emitted. -/
theorem user_switch_scan_found (getName : α → String) (username : String)
    (act : Action) (xs : List α) (st : Bool × Option α × List Action)
    (h : ∃ x ∈ xs, getName x = username) :
    (user_switch_scan getName username act xs st).1 = true ∧
    (∃ x ∈ xs, getName x = username ∧
        (user_switch_scan getName username act xs st).2.1 = some x) ∧
    act ∈ (user_switch_scan getName username act xs st).2.2 := by
  induction xs generalizing st with
  | nil => simp at h
  | cons x rest ih =>
    by_cases hx : getName x = username
    · simp only [user_switch_scan, if_pos hx]
      by_cases hrest : ∃ q ∈ rest, getName q = username
      · obtain ⟨h1, ⟨q, hq, hqn, hact⟩, hmem⟩ := ih _ hrest
        exact ⟨h1, ⟨q, by simp [hq], hqn, hact⟩, hmem⟩
      · have hnone : ∀ q ∈ rest, getName q ≠ username :=
          fun q hq hqn => hrest ⟨q, hq, hqn⟩
        rw [user_switch_scan_no_match getName username act rest _ hnone]
        exact ⟨rfl, ⟨x, by simp, hx, rfl⟩, by simp⟩
    · simp only [user_switch_scan, if_neg hx]
      have hrest : ∃ q ∈ rest, getName q = username := by
        obtain ⟨q, hq, hqn⟩ := h
        rcases List.mem_cons.mp hq with rfl | hq2
        · exact absurd hqn hx
        · exact ⟨q, hq2, hqn⟩
      obtain ⟨h1, ⟨q, hq, hqn, hact⟩, hmem⟩ := ih st hrest
      exact ⟨h1, ⟨q, by simp [hq], hqn, hact⟩, hmem⟩

/-- Every action the scan loop accumulates is either inherited from the
accumulator or is the announce action. -/
theorem user_switch_scan_acts (getName : α → String) (username : String)
    (act : Action) (xs : List α) (st : Bool × Option α × List Action) :
    ∀ a ∈ (user_switch_scan getName username act xs st).2.2,
      a ∈ st.2.2 ∨ a = act := by
  induction xs generalizing st with
  | nil => exact fun a ha => Or.inl ha
  | cons x rest ih =>
    intro a ha
    by_cases hx : getName x = username
    · simp only [user_switch_scan, if_pos hx] at ha
      rcases ih _ a ha with h | h
      · rcases List.mem_append.mp h with h2 | h2
        · exact Or.inl h2
        · exact Or.inr (by simpa using h2)
      · exact Or.inr h
    · simp only [user_switch_scan, if_neg hx] at ha
      exact ih st a ha

/-- The panels block leaves the background fields and the server id of the
output untouched. -/
theorem user_switched_panel_part_fields (username : String) (o : Output) :
    (user_switched_panel_part username o).1.backgrounds = o.backgrounds ∧
    (user_switched_panel_part username o).1.background = o.background ∧
    (user_switched_panel_part username o).1.server_output_id
        = o.server_output_id := by
  simp only [user_switched_panel_part]
  split
  · exact ⟨rfl, rfl, rfl⟩
  · exact ⟨rfl, rfl, rfl⟩

/-- The backgrounds block leaves the panel fields and the server id of the
output untouched. -/
theorem user_switched_background_part_fields (username : String) (o : Output) :
    (user_switched_background_part username o).1.panels = o.panels ∧
    (user_switched_background_part username o).1.panel = o.panel ∧
    (user_switched_background_part username o).1.server_output_id
        = o.server_output_id := by
  simp only [user_switched_background_part]
  split
  · exact ⟨rfl, rfl, rfl⟩
  · exact ⟨rfl, rfl, rfl⟩

/-- Panels block, cache-hit case: no new panel is allocated, a matching
cached panel becomes active, and `set_panel` is sent. -/
theorem user_switched_panel_part_found (username : String) (o : Output)
    (h : ∃ p ∈ o.panels, p.username = username) :
    (user_switched_panel_part username o).1.panels = o.panels ∧
    (∃ p ∈ o.panels, p.username = username ∧
        (user_switched_panel_part username o).1.panel = some p) ∧
    Action.setPanel o.server_output_id
        ∈ (user_switched_panel_part username o).2 := by
  obtain ⟨hf, hex, hmem⟩ := user_switch_scan_found Panel.username username
    (Action.setPanel o.server_output_id) o.panels (false, o.panel, []) h
  simp only [user_switched_panel_part, hf, if_true]
  exact ⟨trivial, hex, hmem⟩

/-- Panels block, cache-miss case: a fresh panel for the user is created,
cached at the head of the list, made active, and `set_panel` is sent. -/
theorem user_switched_panel_part_not_found (username : String) (o : Output)
    (h : ∀ p ∈ o.panels, p.username ≠ username) :
    user_switched_panel_part username o
      = ({ o with panel := some (panel_create username),
                  panels := panel_create username :: o.panels },
         [Action.setPanel o.server_output_id]) := by
  simp only [user_switched_panel_part,
             user_switch_scan_no_match Panel.username username
               (Action.setPanel o.server_output_id) o.panels
               (false, o.panel, []) h]
  simp

/-- Backgrounds block, cache-hit case. -/
theorem user_switched_background_part_found (username : String) (o : Output)
    (h : ∃ b ∈ o.backgrounds, b.username = username) :
    (user_switched_background_part username o).1.backgrounds
        = o.backgrounds ∧
    (∃ b ∈ o.backgrounds, b.username = username ∧
        (user_switched_background_part username o).1.background = some b) ∧
    Action.setBackground o.server_output_id
        ∈ (user_switched_background_part username o).2 := by
  obtain ⟨hf, hex, hmem⟩ := user_switch_scan_found Background.username username
    (Action.setBackground o.server_output_id) o.backgrounds
    (false, o.background, []) h
  simp only [user_switched_background_part, hf, if_true]
  exact ⟨trivial, hex, hmem⟩

/-- Backgrounds block, cache-miss case. -/
theorem user_switched_background_part_not_found (username : String)
    (o : Output) (h : ∀ b ∈ o.backgrounds, b.username ≠ username) :
    user_switched_background_part username o
      = ({ o with background := some (background_create username),
                  backgrounds := background_create username :: o.backgrounds },
         [Action.setBackground o.server_output_id]) := by
  simp only [user_switched_background_part,
             user_switch_scan_no_match Background.username username
               (Action.setBackground o.server_output_id) o.backgrounds
               (false, o.background, []) h]
  simp

/-- The panels block only ever emits `set_panel` for its own output. -/
theorem user_switched_panel_part_acts (username : String) (o : Output) :
    ∀ a ∈ (user_switched_panel_part username o).2,
      a = Action.setPanel o.server_output_id := by
  intro a ha
  have hscan := user_switch_scan_acts Panel.username username
    (Action.setPanel o.server_output_id) o.panels (false, o.panel, [])
  simp only [user_switched_panel_part] at ha
  by_cases hf : (user_switch_scan Panel.username username
      (Action.setPanel o.server_output_id) o.panels (false, o.panel, [])).1
      = true
  · rw [if_pos hf] at ha
    rcases hscan a ha with h | h
    · simp at h
    · exact h
  · rw [if_neg hf] at ha
    rcases List.mem_append.mp ha with h | h
    · rcases hscan a h with h2 | h2
      · simp at h2
      · exact h2
    · simpa using h

/-- The backgrounds block only ever emits `set_background` for its own
output. -/
theorem user_switched_background_part_acts (username : String) (o : Output) :
    ∀ a ∈ (user_switched_background_part username o).2,
      a = Action.setBackground o.server_output_id := by
  intro a ha
  have hscan := user_switch_scan_acts Background.username username
    (Action.setBackground o.server_output_id) o.backgrounds
    (false, o.background, [])
  simp only [user_switched_background_part] at ha
  by_cases hf : (user_switch_scan Background.username username
      (Action.setBackground o.server_output_id) o.backgrounds
      (false, o.background, [])).1 = true
  · rw [if_pos hf] at ha
    rcases hscan a ha with h | h
    · simp at h
    · exact h
  · rw [if_neg hf] at ha
    rcases List.mem_append.mp ha with h | h
    · rcases hscan a h with h2 | h2
      · simp at h2
      · exact h2
    · simpa using h

/-- The panels block keeps every previously cached panel allocated. -/
theorem user_switched_panel_part_cache (username : String) (o : Output) :
    ∀ p ∈ o.panels, p ∈ (user_switched_panel_part username o).1.panels := by
  intro p hp
  simp only [user_switched_panel_part]
  split
  · exact hp
  · exact List.mem_cons_of_mem _ hp

/-- The backgrounds block keeps every previously cached background
allocated. -/
theorem user_switched_background_part_cache (username : String) (o : Output) :
    ∀ b ∈ o.backgrounds,
      b ∈ (user_switched_background_part username o).1.backgrounds := by
  intro b hb
  simp only [user_switched_background_part]
  split
  · exact hb
  · exact List.mem_cons_of_mem _ hb

/-- Every action emitted for one output is a `set_panel` or a
`set_background` for that output. -/
theorem user_switched_output_acts (username : String) (o : Output) :
    ∀ a ∈ (user_switched_output username o).2,
      a = Action.setPanel o.server_output_id ∨
      a = Action.setBackground o.server_output_id := by
  intro a ha
  simp only [user_switched_output] at ha
  rcases List.mem_append.mp ha with h | h
  · exact Or.inl (user_switched_panel_part_acts username o a h)
  · have h2 := user_switched_background_part_acts username
      (user_switched_panel_part username o).1 a h
    rw [(user_switched_panel_part_fields username o).2.2] at h2
    exact Or.inr h2

/-- C4: a user-switched event updates the current username; on every output
a cached panel (resp. background) for that user is reused — no new surface
is allocated — made active and re-announced with `set_panel`
(resp. `set_background`); with no cached match a fresh surface is created,
cached, made active and announced; previously cached surfaces all remain
allocated; and the unlock-finish action is queued as a deferred task, not
executed synchronously (no `unlock` is sent by the handler itself). -/
theorem claim_C4 (d : Desktop) (username : String) :
    (desktop_shell_user_switched d username).1.current_user = username ∧
    (desktop_shell_user_switched d username).1.outputs
        = d.outputs.map (fun o => (user_switched_output username o).1) ∧
    (∀ o : Output,
      ((∃ p ∈ o.panels, p.username = username) →
        (user_switched_output username o).1.panels = o.panels ∧
        (∃ p ∈ o.panels, p.username = username ∧
            (user_switched_output username o).1.panel = some p) ∧
        Action.setPanel o.server_output_id
            ∈ (user_switched_output username o).2) ∧
      ((∀ p ∈ o.panels, p.username ≠ username) →
        (user_switched_output username o).1.panels
            = panel_create username :: o.panels ∧
        (user_switched_output username o).1.panel
            = some (panel_create username) ∧
        Action.setPanel o.server_output_id
            ∈ (user_switched_output username o).2) ∧
      ((∃ b ∈ o.backgrounds, b.username = username) →
        (user_switched_output username o).1.backgrounds = o.backgrounds ∧
        (∃ b ∈ o.backgrounds, b.username = username ∧
            (user_switched_output username o).1.background = some b) ∧
        Action.setBackground o.server_output_id
            ∈ (user_switched_output username o).2) ∧
      ((∀ b ∈ o.backgrounds, b.username ≠ username) →
        (user_switched_output username o).1.backgrounds
            = background_create username :: o.backgrounds ∧
        (user_switched_output username o).1.background
            = some (background_create username) ∧
        Action.setBackground o.server_output_id
            ∈ (user_switched_output username o).2) ∧
      (∀ p ∈ o.panels, p ∈ (user_switched_output username o).1.panels) ∧
      (∀ b ∈ o.backgrounds,
          b ∈ (user_switched_output username o).1.backgrounds)) ∧
    Action.deferUnlockTask ∈ (desktop_shell_user_switched d username).2 ∧
    Action.unlock ∉ (desktop_shell_user_switched d username).2 := by
  refine ⟨rfl, by simp [desktop_shell_user_switched], fun o => ?_, ?_, ?_⟩
  · have hpf := user_switched_panel_part_fields username o
    have hbf := user_switched_background_part_fields username
      (user_switched_panel_part username o).1
    refine ⟨fun h => ?_, fun h => ?_, fun h => ?_, fun h => ?_, ?_, ?_⟩
    · obtain ⟨hpanels, hex, hmem⟩ := user_switched_panel_part_found username o h
      refine ⟨?_, ?_, ?_⟩
      · show (user_switched_background_part username
            (user_switched_panel_part username o).1).1.panels = o.panels
        rw [hbf.1, hpanels]
      · obtain ⟨p, hp, hpn, hpe⟩ := hex
        exact ⟨p, hp, hpn, by
          show (user_switched_background_part username
              (user_switched_panel_part username o).1).1.panel = some p
          rw [hbf.2.1, hpe]⟩
      · show Action.setPanel o.server_output_id
            ∈ (user_switched_panel_part username o).2
              ++ (user_switched_background_part username
                    (user_switched_panel_part username o).1).2
        exact List.mem_append.mpr (Or.inl hmem)
    · have heq := user_switched_panel_part_not_found username o h
      refine ⟨?_, ?_, ?_⟩
      · show (user_switched_background_part username
            (user_switched_panel_part username o).1).1.panels
          = panel_create username :: o.panels
        rw [hbf.1, heq]
      · show (user_switched_background_part username
            (user_switched_panel_part username o).1).1.panel
          = some (panel_create username)
        rw [hbf.2.1, heq]
      · show Action.setPanel o.server_output_id
            ∈ (user_switched_panel_part username o).2
              ++ (user_switched_background_part username
                    (user_switched_panel_part username o).1).2
        rw [heq]
        simp
    · have h2 : ∃ b ∈ (user_switched_panel_part username o).1.backgrounds,
          b.username = username := by rw [hpf.1]; exact h
      obtain ⟨hbgs, hex, hmem⟩ := user_switched_background_part_found username
        (user_switched_panel_part username o).1 h2
      refine ⟨?_, ?_, ?_⟩
      · show (user_switched_background_part username
            (user_switched_panel_part username o).1).1.backgrounds
          = o.backgrounds
        rw [hbgs, hpf.1]
      · obtain ⟨b, hb, hbn, hbe⟩ := hex
        rw [hpf.1] at hb
        exact ⟨b, hb, hbn, hbe⟩
      · rw [hpf.2.2] at hmem
        exact List.mem_append.mpr (Or.inr hmem)
    · have h2 : ∀ b ∈ (user_switched_panel_part username o).1.backgrounds,
          b.username ≠ username := by rw [hpf.1]; exact h
      have heq := user_switched_background_part_not_found username
        (user_switched_panel_part username o).1 h2
      refine ⟨?_, ?_, ?_⟩
      · show (user_switched_background_part username
            (user_switched_panel_part username o).1).1.backgrounds
          = background_create username :: o.backgrounds
        rw [heq]
        show background_create username ::
            (user_switched_panel_part username o).1.backgrounds
          = background_create username :: o.backgrounds
        rw [hpf.1]
      · show (user_switched_background_part username
            (user_switched_panel_part username o).1).1.background
          = some (background_create username)
        rw [heq]
      · show Action.setBackground o.server_output_id
            ∈ (user_switched_panel_part username o).2
              ++ (user_switched_background_part username
                    (user_switched_panel_part username o).1).2
        rw [heq, hpf.2.2]
        simp
    · intro p hp
      show p ∈ (user_switched_background_part username
          (user_switched_panel_part username o).1).1.panels
      rw [hbf.1]
      exact user_switched_panel_part_cache username o p hp
    · intro b hb
      have hb2 : b ∈ (user_switched_panel_part username o).1.backgrounds := by
        rw [hpf.1]; exact hb
      exact user_switched_background_part_cache username
        (user_switched_panel_part username o).1 b hb2
  · simp [desktop_shell_user_switched]
  · intro h
    simp only [desktop_shell_user_switched, List.mem_append] at h
    rcases h with h | h
    · obtain ⟨l, hl, hmem⟩ := List.mem_flatten.mp h
      obtain ⟨r, hr, rfl⟩ := List.mem_map.mp hl
      obtain ⟨o, ho, rfl⟩ := List.mem_map.mp hr
      rcases user_switched_output_acts username o _ hmem with h2 | h2 <;>
        simp at h2
    · simp at h

/-- A concrete output with cached surface pairs for "Guest" (active) and
"alice". -/
def outputSeven : Output :=
  { server_output_id := 7,
    panel := some { username := "Guest", painted := true },
    panels := [{ username := "Guest", painted := true },
               { username := "alice", painted := true }],
    background := some { username := "Guest", painted := true },
    backgrounds := [{ username := "Guest", painted := true }] }

/-- A concrete desktop owning `outputSeven`. -/
def desktopSeven : Desktop :=
  { interface_version := 2, shell := true, listenerRegistered := true,
    unlock_dialog := none, outputs := [outputSeven], locking := true,
    painted := false, current_user := "Guest" }

/-- Witness for C4: switching to "alice" on an output that already caches an
"alice" panel allocates nothing — the panel cache is unchanged. -/
theorem claim_C4_witness :
    (user_switched_output "alice" outputSeven).1.panels
      = outputSeven.panels :=
  (((claim_C4 desktopSeven "alice").2.2.1 outputSeven).1 (by decide)).1

end WestonGreeter
